import Mathlib

/-!
Verification of the go-blip sampling core (src/main.go) against its
specification.  The repository holds three variants of the program: two
WebSocket streamers (`wsHandler`) and a desktop variant whose `doPings`
goroutine appends `PingResult`s to the shared `results` slice (capacity 60)
and whose `renderChart` turns that slice into chart series.  The definitions
below are shallow embeddings of those functions; machine integers are
modelled as `Int`/`Nat` (the values involved never approach 2^63).
-/

namespace GoBlip

/-- `PingResult` (src/main.go): the timestamp of one round (modelled as integer
nanoseconds since some epoch) and the two per-target latencies in milliseconds
as recorded by the program (`-1` is what the source stores on a probe error). -/
structure PingResult where
  timestamp : Int
  gstaticLatency : Int
  apenwarrLatency : Int
deriving DecidableEq, Repr, Inhabited

/-- Nanoseconds per millisecond: Go's `time.Duration.Milliseconds` divides the
nanosecond count by 1e6, truncating toward zero. -/
def nsPerMs : Nat := 1000000

/-- `time.Since(start).Milliseconds()` for an elapsed time of `ns` nanoseconds.
`time.Since` reads the monotonic clock, so the elapsed duration is a
non-negative number of nanoseconds and the truncating division of
`Milliseconds` coincides with floor division on `Nat`. -/
def millisecondsOf (ns : Nat) : Int := (ns / nsPerMs : Nat)

/-- The sentinel value the source assigns to `latency` when `http.Get` returns
an error (`latency = -1` in all three variants). -/
def failedSentinel : Int := -1

/-- One probe as performed in `doPings` and `wsHandler`: `http.Get` runs for
`ns` nanoseconds of wall-clock time and `err` says whether it returned an
error.  The code first computes `time.Since(start).Milliseconds()` and then
overwrites the value with `-1` if `err != nil`; otherwise the elapsed whole
milliseconds are kept.  No exception/panic path exists: the error is consumed
locally and a value is always produced. -/
def measure (err : Bool) (ns : Nat) : Int :=
  if err then failedSentinel else millisecondsOf ns

/-- History Store capacity: `doPings` keeps only the most recent 60 entries. -/
def historyCap : Nat := 60

/-- One append to the History Store, as in `doPings`:
`results = append(results, r)` followed by
`if len(results) > 60 { results = results[len(results)-60:] }`. -/
def recordResult (rs : List PingResult) (r : PingResult) : List PingResult :=
  let rs2 := rs ++ [r]
  if rs2.length > historyCap then rs2.drop (rs2.length - historyCap) else rs2

/-- One full round of `doPings`: the timestamp `now` is captured once, the
gstatic target is probed, then the apenwarr target is probed; the two error
checks are independent and neither aborts the round. -/
def doRound (now : Int) (gErr : Bool) (gNs : Nat) (aErr : Bool) (aNs : Nat) :
    PingResult :=
  { timestamp := now
    gstaticLatency := measure gErr gNs
    apenwarrLatency := measure aErr aNs }

theorem recordResult_eq_drop (rs : List PingResult) (r : PingResult) :
    recordResult rs r = (rs ++ [r]).drop ((rs.length + 1) - historyCap) := by
  unfold recordResult
  simp only [List.length_append, List.length_singleton]
  by_cases h : rs.length + 1 > historyCap
  · simp [h]
  · have h0 : rs.length + 1 - historyCap = 0 := by omega
    simp [h, h0]

theorem recordResult_length (rs : List PingResult) (r : PingResult) :
    (recordResult rs r).length = min (rs.length + 1) historyCap := by
  rw [recordResult_eq_drop]
  simp only [List.length_drop, List.length_append, List.length_singleton]
  omega

theorem foldl_recordResult (samples : List PingResult) :
    ∀ rs : List PingResult, rs.length ≤ historyCap →
      samples.foldl recordResult rs =
        (rs ++ samples).drop ((rs.length + samples.length) - historyCap) := by
  induction samples with
  | nil =>
    intro rs h
    simp only [List.foldl_nil, List.length_nil, Nat.add_zero, List.append_nil]
    have h0 : rs.length - historyCap = 0 := by omega
    rw [h0, List.drop_zero]
  | cons x xs ih =>
    intro rs h
    rw [List.foldl_cons]
    have hlen : (recordResult rs x).length ≤ historyCap := by
      rw [recordResult_length]; omega
    rw [ih _ hlen, recordResult_length, recordResult_eq_drop]
    have hk : (rs.length + 1) - historyCap ≤ (rs ++ [x]).length := by
      simp only [List.length_append, List.length_singleton]
      omega
    rw [← List.drop_append_of_le_length hk, List.drop_drop]
    have hl : rs ++ [x] ++ xs = rs ++ x :: xs := by simp
    rw [hl]
    simp only [List.length_cons]
    congr 1
    omega

theorem recordResult_getLast (rs : List PingResult) (r : PingResult) :
    (recordResult rs r).getLast? = some r := by
  rw [recordResult_eq_drop]
  have hc : historyCap = 60 := rfl
  have hk : (rs.length + 1) - historyCap ≤ rs.length := by omega
  rw [List.drop_append_of_le_length hk]
  exact List.getLast?_concat _

/-- The data `renderChart` hands to the chart library: the arrays `xValues`,
`yValuesG` and `yValuesA`, one entry per stored sample, filled by
`for i, r := range results`.  `float64(r.GstaticLatency)` converts an `int64`
that is either `-1` or a millisecond count (far below 2^53), so the conversion
is exact and the values are kept as integers here.  When fewer than 2 samples
are stored the function returns `nil` instead of an image (the NoData case),
modelled by `none`. -/
def renderChartData (rs : List PingResult) :
    Option (List Int × List Int × List Int) :=
  if rs.length < 2 then none
  else some (rs.map (fun r => r.timestamp),
             rs.map (fun r => r.gstaticLatency),
             rs.map (fun r => r.apenwarrLatency))

/-- The bounds-safety predicate for `renderChart`'s fill loop: the arrays are
allocated with `make([]..., nAlloc)` where `nAlloc` is the store length read
under the first lock acquisition; the loop then writes index `i` for every
`i < storeAtIter.length`, where `storeAtIter` is the store contents when the
lock is re-acquired.  Every written index is in bounds iff
`storeAtIter.length ≤ nAlloc`. -/
def writesInBounds (nAlloc : Nat) (storeAtIter : List PingResult) : Bool :=
  decide (storeAtIter.length ≤ nAlloc)

/-- Modelled from the source's probe call: `http.Get` uses `http.DefaultClient`,
whose `Timeout` field is left at its zero value, and a zero `Timeout` means the
request has no deadline.  The source sets no context deadline and no transport
timeout either, so no timeout is configured for the probe: `none`. -/
def probeTimeoutNs : Option Nat := none

/-- Whether a probe call may take `ns` nanoseconds before returning: with a
configured timeout the call would be cut off at that bound; with none
configured, every duration is admissible. -/
def probeElapsedAdmissible (ns : Nat) : Bool :=
  match probeTimeoutNs with
  | none => true
  | some t => decide (ns ≤ t)

/-- Nanoseconds of the `time.Sleep(1 * time.Second)` at the end of each
`doPings` iteration. -/
def sleepNs : Nat := 1000000000

/-- The successive `now := time.Now()` observations of the `doPings` loop over
a monotonic clock: round `k+1` observes round `k`'s timestamp plus the
(non-negative) `work k` nanoseconds the round's two probes and the append took,
plus the one-second sleep. -/
def roundTimestamp (t0 : Int) (work : Nat → Nat) : Nat → Int
  | 0 => t0
  | k + 1 => roundTimestamp t0 work k + work k + sleepNs

/-- Per-connection state of one `wsHandler` invocation: whether the socket is
still being served and which rounds' messages have been delivered, in
production order. -/
structure ViewerSt where
  connOpen : Bool
  delivered : List Nat
deriving DecidableEq, Repr

/-- A freshly upgraded connection: open, nothing delivered yet. -/
def viewerInit : ViewerSt := { connOpen := true, delivered := [] }

/-- Round `t` for one viewer, as in `wsHandler`'s loop body: if the handler has
already returned nothing more happens; otherwise the round's message is
written with `conn.WriteMessage`; success delivers it, and a write error makes
the handler return (the deferred `conn.Close()` tears the connection down),
with no retry and no buffering of the missed message. -/
def stepViewer (ok : Bool) (t : Nat) (s : ViewerSt) : ViewerSt :=
  if s.connOpen then
    if ok then { s with delivered := s.delivered ++ [t] }
    else { s with connOpen := false }
  else s

/-- One viewer's `wsHandler` loop run for `n` rounds, where `outc t` tells
whether the write of round `t`'s message succeeds on that connection. -/
def runViewer (outc : Nat → Bool) : Nat → ViewerSt
  | 0 => viewerInit
  | n + 1 => stepViewer (outc n) n (runViewer outc n)

/-- All connected viewers across `n` rounds: each round's sample is handed to
every viewer.  Each `wsHandler` invocation runs in its own goroutine and
touches only its own connection, so a round updates each viewer's state from
that viewer's own write outcome alone. -/
def runViewers (traces : List (Nat → Bool)) (n : Nat) : List ViewerSt :=
  (List.range n).foldl
    (fun ss t => List.zipWith (fun outc s => stepViewer (outc t) t s) traces ss)
    (traces.map (fun _ => viewerInit))

theorem zipWith_step_map (traces : List (Nat → Bool)) (t : Nat)
    (f : (Nat → Bool) → ViewerSt) :
    List.zipWith (fun outc s => stepViewer (outc t) t s) traces (traces.map f) =
      traces.map (fun outc => stepViewer (outc t) t (f outc)) := by
  induction traces with
  | nil => rfl
  | cons a as ih => simp [ih]

theorem runViewers_eq_map (traces : List (Nat → Bool)) (n : Nat) :
    runViewers traces n = traces.map (fun o => runViewer o n) := by
  induction n with
  | zero => simp [runViewers, runViewer]
  | succ n ih =>
    unfold runViewers at ih ⊢
    rw [List.range_succ, List.foldl_append, List.foldl_cons, List.foldl_nil,
      ih, zipWith_step_map]
    simp only [runViewer]

theorem runViewer_allOk (outc : Nat → Bool) :
    ∀ n : Nat, (∀ j, j < n → outc j = true) →
      runViewer outc n = { connOpen := true, delivered := List.range n } := by
  intro n
  induction n with
  | zero => intro _; rfl
  | succ n ih =>
    intro h
    have hn : outc n = true := h n (Nat.lt_succ_self n)
    have hprev := ih (fun j hj => h j (Nat.lt_succ_of_lt hj))
    simp [runViewer, hprev, stepViewer, hn, viewerInit, List.range_succ]

theorem runViewer_closed_after (outc : Nat → Bool) (k : Nat)
    (hfail : outc k = false) (hpre : ∀ j, j < k → outc j = true) :
    ∀ n : Nat, k < n →
      runViewer outc n = { connOpen := false, delivered := List.range k } := by
  intro n
  induction n with
  | zero => intro h; exact absurd h (Nat.not_lt_zero k)
  | succ n ih =>
    intro h
    by_cases hkn : k < n
    · have hprev := ih hkn
      simp [runViewer, hprev, stepViewer]
    · have hk : k = n := by omega
      subst hk
      have hprev := runViewer_allOk outc k hpre
      simp [runViewer, hprev, stepViewer, hfail]

/-- C1: the History Store never holds more than its capacity of 60 samples.
An append to a store that is within capacity leaves it within capacity, and
any sequence of more than 60 appends starting from the empty store leaves
exactly 60 elements, equal to the last 60 appended samples in production
order (strict FIFO eviction). -/
theorem historyStore_fifo_bound (rs : List PingResult) (x : PingResult)
    (samples : List PingResult) (hrs : rs.length ≤ historyCap)
    (hk : historyCap < samples.length) :
    (recordResult rs x).length ≤ historyCap ∧
    (samples.foldl recordResult []).length = historyCap ∧
    samples.foldl recordResult [] =
      samples.drop (samples.length - historyCap) := by
  have h := foldl_recordResult samples [] (by simp)
  simp only [List.nil_append, List.length_nil, Nat.zero_add] at h
  refine ⟨?_, ?_, h⟩
  · rw [recordResult_length]; omega
  · rw [h, List.length_drop]; omega

/-- Witness for C1: a concrete append within capacity and 61 concrete appends
leaving the last 60. -/
theorem historyStore_fifo_bound_witness :
    (recordResult [] ⟨0, 0, 0⟩).length ≤ historyCap ∧
    ((List.replicate 61 (⟨0, 0, 0⟩ : PingResult)).foldl recordResult []).length
      = historyCap ∧
    (List.replicate 61 (⟨0, 0, 0⟩ : PingResult)).foldl recordResult [] =
      (List.replicate 61 (⟨0, 0, 0⟩ : PingResult)).drop
        ((List.replicate 61 (⟨0, 0, 0⟩ : PingResult)).length - historyCap) :=
  historyStore_fifo_bound [] ⟨0, 0, 0⟩ (List.replicate 61 ⟨0, 0, 0⟩)
    (by simp) (by simp [historyCap])

/-- C2: the claim that the recorded latency-or-error value is never a magic
negative number fails on the code: on every probe failure the source
overwrites the latency with the literal `-1`, a negative value.  (Success
values are separately shown non-negative in `measure_success_nonneg`.) -/
theorem failure_recorded_as_minus_one (ns : Nat) :
    measure true ns = -1 ∧ failedSentinel = -1 ∧ failedSentinel < 0 :=
  ⟨rfl, rfl, by decide⟩

/-- C3: the claim that every probe call is bounded by an explicit timeout
fails on the code: the probe is `http.Get`, whose default client carries no
timeout, so no elapsed duration of the call is ruled out. -/
theorem probe_has_no_timeout :
    probeTimeoutNs = none ∧ ∀ ns : Nat, probeElapsedAdmissible ns = true :=
  ⟨rfl, fun _ => rfl⟩

/-- C4: the claim that a failed slot is rendered as a gap fails on the code:
on a concrete 2-sample snapshot whose first gstatic slot failed, `renderChart`
hands the chart library full-length series in which the failed slot appears
as the literal data point `-1` (one plotted point per sample, no gap). -/
theorem failed_slot_plotted_as_minus_one :
    renderChartData [⟨0, -1, 5⟩, ⟨1000000000, 12, 7⟩] =
      some ([0, 1000000000], [-1, 12], [5, 7]) ∧
    (-1 : Int) ∈ [(-1 : Int), 12] := by
  exact ⟨rfl, by simp⟩

/-- C5: `renderChart` returns NoData (`nil`, modelled `none`) on a snapshot of
fewer than 2 samples, and on 2 or more samples produces x/y series with
exactly one point per snapshot sample. -/
theorem renderChart_noData_pointCount (rs rs2 : List PingResult)
    (h1 : rs.length < 2) (h2 : 2 ≤ rs2.length) :
    renderChartData rs = none ∧
    ∃ xs yG yA, renderChartData rs2 = some (xs, yG, yA) ∧
      xs.length = rs2.length ∧ yG.length = rs2.length ∧
      yA.length = rs2.length := by
  have hlt : ¬ rs2.length < 2 := by omega
  refine ⟨by simp [renderChartData, h1], ?_⟩
  refine ⟨rs2.map (fun r => r.timestamp), rs2.map (fun r => r.gstaticLatency),
    rs2.map (fun r => r.apenwarrLatency), ?_, by simp, by simp, by simp⟩
  simp [renderChartData, hlt]

/-- Witness for C5: the empty snapshot yields NoData and a concrete 2-sample
snapshot yields 2-point series. -/
theorem renderChart_noData_pointCount_witness :
    renderChartData [] = none ∧
    ∃ xs yG yA,
      renderChartData [(⟨0, 1, 2⟩ : PingResult), ⟨1, 3, 4⟩] =
        some (xs, yG, yA) ∧
      xs.length = [(⟨0, 1, 2⟩ : PingResult), ⟨1, 3, 4⟩].length ∧
      yG.length = [(⟨0, 1, 2⟩ : PingResult), ⟨1, 3, 4⟩].length ∧
      yA.length = [(⟨0, 1, 2⟩ : PingResult), ⟨1, 3, 4⟩].length :=
  renderChart_noData_pointCount [] [⟨0, 1, 2⟩, ⟨1, 3, 4⟩] (by simp) (by simp)

/-- C6: on success the probe records the elapsed wall-clock time in whole
milliseconds, which is never negative and rounds sub-millisecond durations to
0; on any failure it records the sentinel, on a path with no exception — the
error is consumed locally and a value is always produced. -/
theorem measure_success_nonneg (ns ns2 : Nat) (hsub : ns2 < nsPerMs) :
    0 ≤ measure false ns ∧ measure false ns2 = 0 ∧
    ∀ e : Nat, measure true e = failedSentinel := by
  refine ⟨?_, ?_, fun _ => rfl⟩
  · show (0 : Int) ≤ ((ns / nsPerMs : Nat) : Int)
    exact Int.natCast_nonneg _
  · simp [measure, millisecondsOf, Nat.div_eq_of_lt hsub]

/-- Witness for C6 at concrete elapsed durations. -/
theorem measure_success_nonneg_witness :
    0 ≤ measure false 1500000 ∧ measure false 999999 = 0 ∧
    ∀ e : Nat, measure true e = failedSentinel :=
  measure_success_nonneg 1500000 999999 (by decide)

/-- C7: a probe failure on one target does not abort the round, whichever
target it is: in any round in which some probe fails, every failed target's
slot carries the failure sentinel, each target's slot still comes from that
target's own probe outcome alone (the other targets are still measured), and
the round's single sample is still produced — it carries the round's
timestamp, ends up as the newest stored sample, and the store grows by
exactly one entry modulo eviction. -/
theorem round_survives_probe_failure (now : Int) (gErr aErr : Bool)
    (gNs aNs : Nat) (store : List PingResult)
    (hfail : gErr = true ∨ aErr = true) :
    (gErr = true →
      (doRound now gErr gNs aErr aNs).gstaticLatency = failedSentinel) ∧
    (aErr = true →
      (doRound now gErr gNs aErr aNs).apenwarrLatency = failedSentinel) ∧
    (doRound now gErr gNs aErr aNs).gstaticLatency = measure gErr gNs ∧
    (doRound now gErr gNs aErr aNs).apenwarrLatency = measure aErr aNs ∧
    (doRound now gErr gNs aErr aNs).timestamp = now ∧
    (recordResult store (doRound now gErr gNs aErr aNs)).getLast? =
      some (doRound now gErr gNs aErr aNs) ∧
    (recordResult store (doRound now gErr gNs aErr aNs)).length =
      min (store.length + 1) historyCap :=
  ⟨fun h => by subst h; rfl, fun h => by subst h; rfl, rfl, rfl, rfl,
    recordResult_getLast _ _, recordResult_length _ _⟩

/-- Witness for C7: a concrete round in which only the apenwarr probe fails —
the gstatic target is still measured (7 ms) and the single sample is still
produced and stored, with the apenwarr slot carrying the sentinel. -/
theorem round_survives_probe_failure_witness :
    ((false : Bool) = true →
      (doRound 0 false 7000000 true 0).gstaticLatency = failedSentinel) ∧
    ((true : Bool) = true →
      (doRound 0 false 7000000 true 0).apenwarrLatency = failedSentinel) ∧
    (doRound 0 false 7000000 true 0).gstaticLatency = measure false 7000000 ∧
    (doRound 0 false 7000000 true 0).apenwarrLatency = measure true 0 ∧
    (doRound 0 false 7000000 true 0).timestamp = 0 ∧
    (recordResult [] (doRound 0 false 7000000 true 0)).getLast? =
      some (doRound 0 false 7000000 true 0) ∧
    (recordResult [] (doRound 0 false 7000000 true 0)).length =
      min (([] : List PingResult).length + 1) historyCap :=
  round_survives_probe_failure 0 false true 7000000 0 [] (Or.inr rfl)

/-- C8: sample timestamps are strictly increasing across rounds: each round's
`time.Now()` observation exceeds the previous one by the round's own work plus
the one-second sleep, which is positive. -/
theorem timestamps_strictly_increasing (t0 : Int) (work : Nat → Nat)
    (k : Nat) :
    roundTimestamp t0 work k < roundTimestamp t0 work (k + 1) := by
  have h : roundTimestamp t0 work (k + 1)
      = roundTimestamp t0 work k + work k + sleepNs := rfl
  have hs : sleepNs = 1000000000 := rfl
  omega

/-- C9: on a write failure the viewer's connection is torn down — it ends
closed having delivered exactly the rounds before the failure, in order, with
no retry and no buffering of later samples — and every viewer's state across
the rounds is a function of its own write-outcome trace alone, so one
viewer's failure leaves all other viewers (and the sampling loop feeding
them) unaffected. -/
theorem viewer_teardown_independent (traces : List (Nat → Bool))
    (tr : Nat → Bool) (n k : Nat) (hk : k < n) (hfail : tr k = false)
    (hpre : ∀ j, j < k → tr j = true) :
    runViewers traces n = traces.map (fun o => runViewer o n) ∧
    runViewer tr n = { connOpen := false, delivered := List.range k } :=
  ⟨runViewers_eq_map traces n, runViewer_closed_after tr k hfail hpre n hk⟩

/-- Witness for C9: two concrete viewers over three rounds; the second
viewer's write fails at round 1, it ends closed having delivered round 0
only. -/
theorem viewer_teardown_independent_witness :
    runViewers [fun _ => true, fun t => decide (t ≠ 1)] 3 =
      [fun _ => true, fun t => decide (t ≠ 1)].map (fun o => runViewer o 3) ∧
    runViewer (fun t => decide (t ≠ 1)) 3 =
      { connOpen := false, delivered := List.range 1 } :=
  viewer_teardown_independent [fun _ => true, fun t => decide (t ≠ 1)]
    (fun t => decide (t ≠ 1)) 3 1 (by decide) (by decide)
    (fun j hj => by
      have hj0 : j = 0 := by omega
      subst hj0
      rfl)

/-- C10: the claim that `renderChart`'s element writes are always in bounds
fails: the lock is released between reading the length `n` used for the
array allocations and the fill loop, so a concurrent `doPings` append can
interleave; whenever the store was below capacity, one interleaved append
makes the loop iterate over `n + 1` elements and write index `n` out of
bounds of the `n`-sized arrays. -/
theorem renderChart_index_out_of_bounds (s : List PingResult) (x : PingResult)
    (h : s.length < historyCap) :
    writesInBounds s.length (recordResult s x) = false := by
  have hlen := recordResult_length s x
  simp only [writesInBounds, decide_eq_false_iff_not, not_le, hlen]
  omega

/-- Witness for C10: a 2-element store, one interleaved append, and the fill
loop's writes are out of bounds for the 2-sized arrays. -/
theorem renderChart_index_out_of_bounds_witness :
    writesInBounds [(⟨0, 0, 0⟩ : PingResult), ⟨1, 1, 1⟩].length
      (recordResult [⟨0, 0, 0⟩, ⟨1, 1, 1⟩] ⟨2, 2, 2⟩) = false :=
  renderChart_index_out_of_bounds [⟨0, 0, 0⟩, ⟨1, 1, 1⟩] ⟨2, 2, 2⟩ (by decide)

end GoBlip
